import Mathlib

/-!
Shallow embedding of the batch indicator-series summarizer of the
credi-python-demo dashboard (`pages/3_Automation.py` and
`pages/1_Data_And_Text_Analysis.py`), together with theorems checking the
claims of the specification against it.

Numbers: JSON floats are embedded as rationals (`ℚ`); the Python
round-half-to-even `round(x, n)` is embedded exactly over `ℚ`.
-/

namespace CrediDemo

/-- One record of the World Bank API payload, `{"date": ..., "value": ...}`,
with the date already converted by `int(r["date"])` and the value either a
number or JSON `null`. -/
structure WBObs where
  date : Int
  value : Option ℚ
deriving DecidableEq

/-- One top-level element of the parsed JSON payload `raw`.  The code only
reads `len(raw)` and `raw[1]`; `raw[1]` is either JSON `null` (`none`) or an
array of records (`some l`).  The metadata object at `raw[0]` is never read,
so it is modelled by the same type. -/
abbrev RawItem := Option (List WBObs)

/-- Round a rational to the nearest integer, ties to even: the behaviour of
the Python builtin `round` (idealised over `ℚ`). -/
def roundHalfEven (q : ℚ) : ℤ :=
  if q - ⌊q⌋ < 1/2 then ⌊q⌋
  else if 1/2 < q - ⌊q⌋ then ⌊q⌋ + 1
  else if ⌊q⌋ % 2 = 0 then ⌊q⌋ else ⌊q⌋ + 1

/-- The Python call `round(q, n)`: round to `n` decimal digits, ties to even. -/
def roundTo (n : ℕ) (q : ℚ) : ℚ :=
  (roundHalfEven (q * 10 ^ n) : ℚ) / 10 ^ n

/-- The `records` list comprehension of `fetch_country_data`
(`pages/3_Automation.py` lines 87-91): keep the observations whose value is
not `null` and whose year lies in the inclusive `year_range`, as
`(Year, Value)` pairs, in payload order. -/
def mkRecords (year_range : Int × Int) (obs : List WBObs) : List (Int × ℚ) :=
  obs.filterMap fun r =>
    match r.value with
    | none => none
    | some v =>
      if year_range.1 ≤ r.date ∧ r.date ≤ year_range.2 then some (r.date, v) else none

/-- The sort key of `df.sort_values("Year")`: compare records by year. -/
def yearLE (a b : Int × ℚ) : Prop := a.1 ≤ b.1

instance : DecidableRel yearLE := fun a b => Int.decLe a.1 b.1

instance : IsTotal (Int × ℚ) yearLE := ⟨fun a b => Int.le_total a.1 b.1⟩

instance : IsTrans (Int × ℚ) yearLE := ⟨fun _ _ _ h h' => le_trans h h'⟩

/-- The expression `pd.DataFrame(records).sort_values("Year")`: the
date-filtered series, stably sorted by year ascending (the stable ascending
sort of pandas, embedded as insertion sort, which is also stable). -/
def fetchSeries (year_range : Int × Int) (obs : List WBObs) : List (Int × ℚ) :=
  List.insertionSort yearLE (mkRecords year_range obs)

/-- The statistic `df["Value"].min()` over a non-empty column (junk value `0` on the empty
list, which every caller guards against). -/
def listMin : List ℚ → ℚ
  | [] => 0
  | [v] => v
  | v :: w :: vs => min v (listMin (w :: vs))

/-- The statistic `df["Value"].max()` over a non-empty column (junk value `0` on the empty
list, which every caller guards against). -/
def listMax : List ℚ → ℚ
  | [] => 0
  | [v] => v
  | v :: w :: vs => max v (listMax (w :: vs))

/-- The summary dict returned by `fetch_country_data`, minus the `_data`
entry (which the embedding returns as a separate component). -/
structure Summary where
  country : String
  mean : ℚ
  min : ℚ
  max : ℚ
  latestValue : ℚ
  latestYear : ℚ
deriving DecidableEq

/-- The function `fetch_country_data` of `pages/3_Automation.py` (lines 75-106), from the
point where the HTTP response has been parsed into `raw`: returns `none`
when the payload is malformed (`len(raw) < 2 or not raw[1]`; the first test
is exactly `raw[1]?` being `none`, the second catches a `null` or empty
second element) or when no observation survives the value/year filter, and
otherwise the rounded summary statistics together with the sorted series
(the `_data` entry). -/
def fetch_country_data (country_name : String) (year_range : Int × Int)
    (raw : List RawItem) : Option (Summary × List (Int × ℚ)) :=
  match raw[1]? with
  | none => none
  | some none => none
  | some (some obs) =>
    if obs.isEmpty then none
    else
        let records := mkRecords year_range obs
        if records.isEmpty then none
        else
          let df := fetchSeries year_range obs
          let vals := df.map Prod.snd
          let last := df.getLast?.getD (0, 0)
          some
            ({ country := country_name
             , mean := roundTo 2 (vals.sum / (vals.length : ℚ))
             , min := roundTo 2 (listMin vals)
             , max := roundTo 2 (listMax vals)
             , latestValue := roundTo 2 last.2
             , latestYear := roundTo 2 (last.1 : ℚ) }, df)

/-- A series tagged row list: the `_data` DataFrame of one country. -/
abbrev Series := List (Int × ℚ)

/-- The outcome of the network-and-parse part of one `fetch_country_data`
call inside the batch loop: either `requests.get(...)` / `response.json()`
raised (timeout, connection failure, undecodable body), or they produced a
parsed JSON payload. -/
inductive FetchOutcome where
  | raises (msg : String)
  | payload (raw : List RawItem)
deriving DecidableEq

/-- Returns `true` when the fetch produced a parsed payload rather than raising. -/
def FetchOutcome.isPayload : FetchOutcome → Bool
  | .raises _ => false
  | .payload _ => true

/-- The body of the `Run Batch Analysis` loop (`pages/3_Automation.py` lines
114-121), processing the remaining entities: each iteration first reports
progress `i / n`, then runs `fetch_country_data`; a raised exception
propagates (aborting the loop), a `none` result appends nothing, and a
summary is appended to `results` with its series added to `full_series`.
Returns the progress reports emitted from this point on, and either the
uncaught exception or the final accumulators.  The trailing `1.0` report of
line 121 is emitted after the last iteration. -/
def runBatchAux (year_range : Int × Int) (n : ℕ) :
    ℕ → List (String × FetchOutcome) → List Summary → List (String × Series) →
    List ℚ × Except String (List Summary × List (String × Series))
  | _, [], results, series => ([1], .ok (results, series))
  | i, (name, out) :: rest, results, series =>
    let p : ℚ := (i : ℚ) / (n : ℚ)
    match out with
    | .raises msg => ([p], .error msg)
    | .payload raw =>
      match fetch_country_data name year_range raw with
      | none =>
        let r := runBatchAux year_range n (i + 1) rest results series
        (p :: r.1, r.2)
      | some (s, d) =>
        let r := runBatchAux year_range n (i + 1) rest (results ++ [s]) (series ++ [(name, d)])
        (p :: r.1, r.2)

/-- The `Run Batch Analysis` click handler (`pages/3_Automation.py` lines
108-121): creates the progress widget at `0`, loops over the entities, and
reports `1.0` after the loop.  The first component is the sequence of
progress values reported, in order; the second is either the uncaught
exception of a fetch that raised, or the collected summaries and series. -/
def runBatch (year_range : Int × Int) (entities : List (String × FetchOutcome)) :
    List ℚ × Except String (List Summary × List (String × Series)) :=
  let r := runBatchAux year_range entities.length 0 entities [] []
  (0 :: r.1, r.2)

/-- What one entity of the batch contributes when its fetch does not raise. -/
def entitySummary (year_range : Int × Int) : String × FetchOutcome → Option (Summary × Series)
  | (name, .payload raw) => fetch_country_data name year_range raw
  | (_, .raises _) => none

/-- The summary rows a batch accumulates, in entity order. -/
def batchSummaries (year_range : Int × Int) (entities : List (String × FetchOutcome)) :
    List Summary :=
  entities.filterMap fun e => (entitySummary year_range e).map Prod.fst

/-- The tagged series a batch accumulates, in entity order. -/
def batchSeries (year_range : Int × Int) (entities : List (String × FetchOutcome)) :
    List (String × Series) :=
  entities.filterMap fun e => (entitySummary year_range e).map fun p => (e.1, p.2)

/-- A pandas DataFrame restricted to what `fetch_wb_data` uses: its column
labels and its rows, a row being a (Year, value) pair. -/
structure PandasFrame where
  cols : List String
  rows : List (Int × ℚ)
deriving DecidableEq

/-- The constructor `pd.DataFrame(rowdicts)`: a DataFrame built from a list of records.
pandas infers the columns from the records, so the frame built from the
empty list has no columns at all. -/
def mkFrame (indicator_name : String) (rows : List (Int × ℚ)) : PandasFrame :=
  { cols := if rows.isEmpty then [] else ["Year", indicator_name], rows := rows }

/-- The method `df.sort_values(col)`: pandas raises `KeyError` when `col` is not a
column of `df`, and otherwise stably sorts the rows ascending by it (here
always by the year component, the only sort key the pages use). -/
def sort_values (col : String) (df : PandasFrame) : Except String PandasFrame :=
  if col ∈ df.cols then
    .ok { df with rows := List.insertionSort yearLE df.rows }
  else .error ("KeyError: " ++ col)

/-- The function `fetch_wb_data` of `pages/1_Data_And_Text_Analysis.py` (lines 67-84),
from the point where the response has been parsed and `records = raw[1]`
extracted: builds a DataFrame from the records whose value is not `null`
(no year filtering here — the caller filters after the fact) and sorts it by
`Year`.  The result is `Except` because `sort_values` can raise. -/
def fetch_wb_data (indicator_name : String) (records : List WBObs) :
    Except String PandasFrame :=
  sort_values "Year"
    (mkFrame indicator_name (records.filterMap fun r => r.value.map fun v => (r.date, v)))

/-- The sentiment label assignment of `pages/1_Data_And_Text_Analysis.py`
(lines 541-546): `Positive` for a compound score above `0.05`, `Negative`
below `-0.05`, `Neutral` otherwise. -/
def sentLabel (compound : ℚ) : String :=
  if compound > 1/20 then "Positive"
  else if compound < -(1/20) then "Negative"
  else "Neutral"

/-- One row of `sentiment_data` (lines 548-552): the headline, its compound
score rounded to three digits, and its label. -/
structure SentRow where
  headline : String
  score : ℚ
  sentiment : String
deriving DecidableEq

/-- The `sentiment_data` accumulation loop (lines 537-552), over the list of
headlines paired with the compound score the analyzer gives each one. -/
def sentiment_data (headlines : List (String × ℚ)) : List SentRow :=
  headlines.map fun h => ⟨h.1, roundTo 3 h.2, sentLabel h.2⟩

/-- Count `n_pos` (line 580): how many rows have `Score > 0.05`. -/
def n_pos (rows : List SentRow) : ℕ := rows.countP fun r => r.score > 1/20

/-- Count `n_neu` (line 583): how many rows have `-0.05 ≤ Score ≤ 0.05`. -/
def n_neu (rows : List SentRow) : ℕ :=
  rows.countP fun r => -(1/20) ≤ r.score ∧ r.score ≤ 1/20

/-- Count `n_neg` (line 586): how many rows have `Score < -0.05`. -/
def n_neg (rows : List SentRow) : ℕ := rows.countP fun r => r.score < -(1/20)

/-! ### Properties of the rounding function -/

lemma roundHalfEven_le_floor_add_one (q : ℚ) : roundHalfEven q ≤ ⌊q⌋ + 1 := by
  unfold roundHalfEven
  split_ifs <;> omega

lemma floor_le_roundHalfEven (q : ℚ) : ⌊q⌋ ≤ roundHalfEven q := by
  unfold roundHalfEven
  split_ifs <;> omega

lemma roundHalfEven_mono {q r : ℚ} (h : q ≤ r) : roundHalfEven q ≤ roundHalfEven r := by
  rcases lt_or_eq_of_le (Int.floor_le_floor h) with hf | hf
  · calc roundHalfEven q ≤ ⌊q⌋ + 1 := roundHalfEven_le_floor_add_one q
      _ ≤ ⌊r⌋ := by omega
      _ ≤ roundHalfEven r := floor_le_roundHalfEven r
  · unfold roundHalfEven
    rw [← hf]
    have hq : (⌊q⌋ : ℚ) ≤ q := Int.floor_le q
    split_ifs <;> first | omega | linarith

lemma roundHalfEven_intCast (k : ℤ) : roundHalfEven (k : ℚ) = k := by
  unfold roundHalfEven
  rw [Int.floor_intCast, sub_self]
  norm_num

lemma roundTo_mono (n : ℕ) {q r : ℚ} (h : q ≤ r) : roundTo n q ≤ roundTo n r := by
  unfold roundTo
  have hp : (0 : ℚ) < 10 ^ n := by positivity
  rw [div_le_div_iff_of_pos_right hp]
  exact_mod_cast roundHalfEven_mono (mul_le_mul_of_nonneg_right h (le_of_lt hp))

lemma roundTo_intCast (n : ℕ) (k : ℤ) : roundTo n (k : ℚ) = k := by
  unfold roundTo
  have hp : (0 : ℚ) < 10 ^ n := by positivity
  have : (k : ℚ) * 10 ^ n = ((k * 10 ^ n : ℤ) : ℚ) := by push_cast; ring
  rw [this, roundHalfEven_intCast]
  push_cast
  field_simp

/-! ### Properties of the column statistics -/

lemma listMin_le : ∀ (l : List ℚ), ∀ v ∈ l, listMin l ≤ v
  | [v'], v, hv => by
    simp only [List.mem_singleton] at hv
    subst hv
    exact le_of_eq rfl
  | v' :: w :: vs, v, hv => by
    rcases List.mem_cons.mp hv with rfl | hv'
    · exact min_le_left _ _
    · exact le_trans (min_le_right _ _) (listMin_le (w :: vs) v hv')

lemma le_listMax : ∀ (l : List ℚ), ∀ v ∈ l, v ≤ listMax l
  | [v'], v, hv => by
    simp only [List.mem_singleton] at hv
    subst hv
    exact le_of_eq rfl
  | v' :: w :: vs, v, hv => by
    rcases List.mem_cons.mp hv with rfl | hv'
    · exact le_max_left _ _
    · exact le_trans (le_listMax (w :: vs) v hv') (le_max_right _ _)

lemma listMin_mem : ∀ (l : List ℚ), l ≠ [] → listMin l ∈ l
  | [], h => absurd rfl h
  | [v], _ => by simp [listMin]
  | v :: w :: vs, _ => by
    rcases min_choice v (listMin (w :: vs)) with h | h
    · rw [show listMin (v :: w :: vs) = min v (listMin (w :: vs)) from rfl, h]
      exact List.mem_cons_self _ _
    · rw [show listMin (v :: w :: vs) = min v (listMin (w :: vs)) from rfl, h]
      exact List.mem_cons_of_mem _ (listMin_mem (w :: vs) (by simp))

lemma listMax_mem : ∀ (l : List ℚ), l ≠ [] → listMax l ∈ l
  | [], h => absurd rfl h
  | [v], _ => by simp [listMax]
  | v :: w :: vs, _ => by
    rcases max_choice v (listMax (w :: vs)) with h | h
    · rw [show listMax (v :: w :: vs) = max v (listMax (w :: vs)) from rfl, h]
      exact List.mem_cons_self _ _
    · rw [show listMax (v :: w :: vs) = max v (listMax (w :: vs)) from rfl, h]
      exact List.mem_cons_of_mem _ (listMax_mem (w :: vs) (by simp))

lemma listMin_mul_length_le_sum : ∀ (l : List ℚ), l ≠ [] →
    listMin l * (l.length : ℚ) ≤ l.sum
  | [], h => absurd rfl h
  | [v], _ => by simp [listMin]
  | v :: w :: vs, _ => by
    have ih := listMin_mul_length_le_sum (w :: vs) (by simp)
    have h1 : listMin (v :: w :: vs) ≤ v := min_le_left _ _
    have h2 : listMin (v :: w :: vs) ≤ listMin (w :: vs) := min_le_right _ _
    have hlen : (0 : ℚ) ≤ ((w :: vs).length : ℚ) := by positivity
    have h3 : listMin (v :: w :: vs) * ((w :: vs).length : ℚ) ≤
        listMin (w :: vs) * ((w :: vs).length : ℚ) :=
      mul_le_mul_of_nonneg_right h2 hlen
    have hsum : (v :: w :: vs).sum = v + (w :: vs).sum := rfl
    have hL : ((v :: w :: vs).length : ℚ) = ((w :: vs).length : ℚ) + 1 := by
      push_cast [List.length_cons]
      ring
    rw [hsum, hL]
    nlinarith [h3, ih]

lemma sum_le_listMax_mul_length : ∀ (l : List ℚ), l ≠ [] →
    l.sum ≤ listMax l * (l.length : ℚ)
  | [], h => absurd rfl h
  | [v], _ => by simp [listMax]
  | v :: w :: vs, _ => by
    have ih := sum_le_listMax_mul_length (w :: vs) (by simp)
    have h1 : v ≤ listMax (v :: w :: vs) := le_max_left _ _
    have h2 : listMax (w :: vs) ≤ listMax (v :: w :: vs) := le_max_right _ _
    have hlen : (0 : ℚ) ≤ ((w :: vs).length : ℚ) := by positivity
    have h3 : listMax (w :: vs) * ((w :: vs).length : ℚ) ≤
        listMax (v :: w :: vs) * ((w :: vs).length : ℚ) :=
      mul_le_mul_of_nonneg_right h2 hlen
    have hsum : (v :: w :: vs).sum = v + (w :: vs).sum := rfl
    have hL : ((v :: w :: vs).length : ℚ) = ((w :: vs).length : ℚ) + 1 := by
      push_cast [List.length_cons]
      ring
    rw [hsum, hL]
    nlinarith [h3, ih]

lemma listMin_le_mean {l : List ℚ} (h : l ≠ []) : listMin l ≤ l.sum / (l.length : ℚ) := by
  have hpos : (0 : ℚ) < (l.length : ℚ) := by
    have : 0 < l.length := List.length_pos.mpr h
    exact_mod_cast this
  rw [le_div_iff₀ hpos]
  exact listMin_mul_length_le_sum l h

lemma mean_le_listMax {l : List ℚ} (h : l ≠ []) : l.sum / (l.length : ℚ) ≤ listMax l := by
  have hpos : (0 : ℚ) < (l.length : ℚ) := by
    have : 0 < l.length := List.length_pos.mpr h
    exact_mod_cast this
  rw [div_le_iff₀ hpos]
  exact sum_le_listMax_mul_length l h

lemma listMin_perm {l l' : List ℚ} (h : l.Perm l') : listMin l = listMin l' := by
  rcases eq_or_ne l [] with rfl | hne
  · rw [h.nil_eq.symm]
  · have hne' : l' ≠ [] := fun hl' => hne (by rw [hl'] at h; exact h.eq_nil)
    refine le_antisymm ?_ ?_
    · exact listMin_le l _ (h.mem_iff.mpr (listMin_mem l' hne'))
    · exact listMin_le l' _ (h.mem_iff.mp (listMin_mem l hne))

lemma listMax_perm {l l' : List ℚ} (h : l.Perm l') : listMax l = listMax l' := by
  rcases eq_or_ne l [] with rfl | hne
  · rw [h.nil_eq.symm]
  · have hne' : l' ≠ [] := fun hl' => hne (by rw [hl'] at h; exact h.eq_nil)
    refine le_antisymm ?_ ?_
    · exact le_listMax l' _ (h.mem_iff.mp (listMax_mem l hne))
    · exact le_listMax l _ (h.mem_iff.mpr (listMax_mem l' hne'))

/-! ### Properties of the filtered, sorted series -/

lemma fetchSeries_perm (year_range : Int × Int) (obs : List WBObs) :
    (fetchSeries year_range obs).Perm (mkRecords year_range obs) :=
  List.perm_insertionSort yearLE (mkRecords year_range obs)

lemma fetchSeries_sorted (year_range : Int × Int) (obs : List WBObs) :
    List.Sorted yearLE (fetchSeries year_range obs) :=
  List.sorted_insertionSort yearLE (mkRecords year_range obs)

lemma mem_mkRecords {year_range : Int × Int} {obs : List WBObs} {d : Int} {v : ℚ} :
    (d, v) ∈ mkRecords year_range obs ↔
      ∃ r ∈ obs, r.date = d ∧ r.value = some v ∧ year_range.1 ≤ d ∧ d ≤ year_range.2 := by
  unfold mkRecords
  rw [List.mem_filterMap]
  constructor
  · rintro ⟨r, hr, hf⟩
    cases hv : r.value with
    | none => rw [hv] at hf; simp at hf
    | some v0 =>
      rw [hv] at hf
      dsimp only at hf
      by_cases hin : year_range.1 ≤ r.date ∧ r.date ≤ year_range.2
      · rw [if_pos hin] at hf
        simp only [Option.some.injEq, Prod.mk.injEq] at hf
        exact ⟨r, hr, hf.1, by rw [hv, hf.2], hf.1 ▸ hin.1, hf.1 ▸ hin.2⟩
      · rw [if_neg hin] at hf
        simp at hf
  · rintro ⟨r, hr, rfl, hval, h1, h2⟩
    refine ⟨r, hr, ?_⟩
    rw [hval]
    simp [h1, h2]

lemma mkRecords_eq_nil_of_inverted {year_range : Int × Int} (h : year_range.2 < year_range.1)
    (obs : List WBObs) : mkRecords year_range obs = [] := by
  unfold mkRecords
  rw [List.filterMap_eq_nil_iff]
  intro r _
  cases hv : r.value with
  | none => rfl
  | some v0 =>
    dsimp only
    rw [if_neg]
    rintro ⟨ha, hb⟩
    omega

lemma getLastD_mem {α : Type} (l : List α) (hne : l ≠ []) (d : α) :
    l.getLast?.getD d ∈ l := by
  rw [List.getLast?_eq_getLast_of_ne_nil hne]
  exact List.getLast_mem hne

lemma le_getLastD_of_sorted : ∀ (l : List (Int × ℚ)), List.Sorted yearLE l →
    ∀ x ∈ l, x.1 ≤ (l.getLast?.getD (0, 0)).1
  | [], _, x, hx => absurd hx (by simp)
  | [a], _, x, hx => by
    simp only [List.mem_singleton] at hx
    subst hx
    simp [List.getLast?]
  | a :: b :: t, hs, x, hx => by
    rw [List.getLast?_cons_cons]
    rcases List.mem_cons.mp hx with rfl | hx'
    · have hmem := getLastD_mem (b :: t) (by simp) (0, 0)
      exact (List.sorted_cons.mp hs).1 _ hmem
    · exact le_getLastD_of_sorted (b :: t) (List.sorted_cons.mp hs).2 x hx'

/-- Unfolding `fetch_country_data` on a well-formed payload with at least one
surviving observation. -/
lemma fetch_country_data_eq {name : String} {year_range : Int × Int}
    {raw : List RawItem} {obs : List WBObs}
    (hraw : raw[1]? = some (some obs)) (hne : mkRecords year_range obs ≠ []) :
    fetch_country_data name year_range raw =
      some ({ country := name
            , mean := roundTo 2 (((fetchSeries year_range obs).map Prod.snd).sum /
                ((((fetchSeries year_range obs).map Prod.snd).length : ℕ) : ℚ))
            , min := roundTo 2 (listMin ((fetchSeries year_range obs).map Prod.snd))
            , max := roundTo 2 (listMax ((fetchSeries year_range obs).map Prod.snd))
            , latestValue := roundTo 2 (((fetchSeries year_range obs).getLast?.getD (0, 0)).2)
            , latestYear :=
                roundTo 2 ((((fetchSeries year_range obs).getLast?.getD (0, 0)).1 : ℚ)) },
        fetchSeries year_range obs) := by
  have hobs : obs ≠ [] := by
    intro h
    exact hne (by rw [h]; rfl)
  have hobs' : obs.isEmpty = false := by simpa [List.isEmpty_iff] using hobs
  have hrec' : (mkRecords year_range obs).isEmpty = false := by
    simpa [List.isEmpty_iff] using hne
  simp only [fetch_country_data, hraw, hobs', hrec', Bool.false_eq_true, if_false]

lemma fetch_country_data_none_of_no_records {name : String} {year_range : Int × Int}
    {raw : List RawItem} {obs : List WBObs}
    (hraw : raw[1]? = some (some obs)) (hrec : mkRecords year_range obs = []) :
    fetch_country_data name year_range raw = none := by
  by_cases hobs : obs.isEmpty
  · simp only [fetch_country_data, hraw, hobs, if_true]
  · have hrec' : (mkRecords year_range obs).isEmpty = true := by
      simp [List.isEmpty_iff, hrec]
    simp only [fetch_country_data, hraw, hrec', if_true,
      Bool.not_eq_true] at hobs ⊢
    simp [hobs]

lemma fetch_country_data_none_of_malformed {name : String} {year_range : Int × Int}
    {raw : List RawItem}
    (h : raw.length < 2 ∨ raw[1]? = some none ∨ raw[1]? = some (some [])) :
    fetch_country_data name year_range raw = none := by
  rcases h with h | h | h
  · have : raw[1]? = none := by
      rw [List.getElem?_eq_none_iff]
      omega
    simp [fetch_country_data, this]
  · simp [fetch_country_data, h]
  · simp [fetch_country_data, h]

/-! ### Properties of the batch loop -/

lemma range_map_div_succ (n i len : ℕ) :
    (List.range (len + 1)).map (fun k => ((i + k : ℕ) : ℚ) / (n : ℚ)) =
      ((i : ℕ) : ℚ) / (n : ℚ) ::
        (List.range len).map (fun k => ((i + 1 + k : ℕ) : ℚ) / (n : ℚ)) := by
  rw [List.range_succ_eq_map, List.map_cons, List.map_map]
  refine congrArg₂ _ (by norm_num) ?_
  apply List.map_congr_left
  intro k _
  simp only [Function.comp_apply]
  push_cast
  ring_nf

lemma runBatchAux_payload (year_range : Int × Int) (n : ℕ) :
    ∀ (es : List (String × FetchOutcome)), (∀ e ∈ es, e.2.isPayload = true) →
    ∀ (i : ℕ) (acc : List Summary) (accS : List (String × Series)),
    runBatchAux year_range n i es acc accS =
      ((List.range es.length).map (fun k => ((i + k : ℕ) : ℚ) / (n : ℚ)) ++ [1],
       .ok (acc ++ batchSummaries year_range es, accS ++ batchSeries year_range es))
  | [], _, i, acc, accS => by
    simp [runBatchAux, batchSummaries, batchSeries]
  | (name, out) :: rest, h, i, acc, accS => by
    have hhead := h (name, out) (List.mem_cons_self _ _)
    cases out with
    | raises msg => simp [FetchOutcome.isPayload] at hhead
    | payload raw =>
      have htail : ∀ e ∈ rest, e.2.isPayload = true := fun e he =>
        h e (List.mem_cons_of_mem _ he)
      unfold runBatchAux
      dsimp only
      cases hf : fetch_country_data name year_range raw with
      | none =>
        dsimp only
        rw [runBatchAux_payload year_range n rest htail (i + 1) acc accS,
          List.length_cons, range_map_div_succ]
        simp [batchSummaries, batchSeries, List.filterMap_cons, entitySummary, hf]
      | some sd =>
        obtain ⟨s, d⟩ := sd
        dsimp only
        rw [runBatchAux_payload year_range n rest htail (i + 1) (acc ++ [s])
          (accS ++ [(name, d)]), List.length_cons, range_map_div_succ]
        simp [batchSummaries, batchSeries, List.filterMap_cons, entitySummary, hf]

lemma runBatch_payload (year_range : Int × Int) (es : List (String × FetchOutcome))
    (h : ∀ e ∈ es, e.2.isPayload = true) :
    runBatch year_range es =
      (0 :: ((List.range es.length).map fun k : ℕ => (k : ℚ) / ((es.length : ℕ) : ℚ)) ++ [1],
       .ok (batchSummaries year_range es, batchSeries year_range es)) := by
  unfold runBatch
  rw [runBatchAux_payload year_range es.length es h 0 [] []]
  simp only [Nat.zero_add, List.nil_append, List.cons_append]

lemma runBatchAux_raises (year_range : Int × Int) (n : ℕ) :
    ∀ (pre : List (String × FetchOutcome)), (∀ e ∈ pre, e.2.isPayload = true) →
    ∀ (name : String) (msg : String) (post : List (String × FetchOutcome))
      (i : ℕ) (acc : List Summary) (accS : List (String × Series)),
    runBatchAux year_range n i (pre ++ (name, .raises msg) :: post) acc accS =
      ((List.range (pre.length + 1)).map (fun k => ((i + k : ℕ) : ℚ) / (n : ℚ)),
       .error msg)
  | [], _, name, msg, post, i, acc, accS => by
    simp [runBatchAux, List.range_succ]
  | (nm, out) :: rest, h, name, msg, post, i, acc, accS => by
    have hhead := h (nm, out) (List.mem_cons_self _ _)
    cases out with
    | raises m => simp [FetchOutcome.isPayload] at hhead
    | payload raw =>
      have htail : ∀ e ∈ rest, e.2.isPayload = true := fun e he =>
        h e (List.mem_cons_of_mem _ he)
      rw [List.cons_append]
      unfold runBatchAux
      dsimp only
      cases hf : fetch_country_data nm year_range raw with
      | none =>
        dsimp only
        rw [runBatchAux_raises year_range n rest htail name msg post (i + 1) acc accS,
          List.length_cons, range_map_div_succ n i (rest.length + 1)]
      | some sd =>
        obtain ⟨s, d⟩ := sd
        dsimp only
        rw [runBatchAux_raises year_range n rest htail name msg post (i + 1) (acc ++ [s])
          (accS ++ [(nm, d)]), List.length_cons, range_map_div_succ n i (rest.length + 1)]

/-! ### Properties of the progress trace of a completed batch -/

lemma trace_pairwise (n : ℕ) :
    List.Pairwise (· ≤ ·)
      ((0 : ℚ) :: ((List.range n).map fun k : ℕ => (k : ℚ) / (n : ℚ)) ++ [1]) := by
  rw [List.pairwise_append]
  refine ⟨?_, by simp, ?_⟩
  · rw [List.pairwise_cons]
    constructor
    · intro a ha
      obtain ⟨k, _, rfl⟩ := List.mem_map.mp ha
      positivity
    · rw [List.pairwise_map]
      rcases Nat.eq_zero_or_pos n with rfl | hn
      · simp
      · have hnQ : (0 : ℚ) < (n : ℚ) := by exact_mod_cast hn
        refine (List.pairwise_lt_range n).imp ?_
        intro a b hab
        exact div_le_div_of_nonneg_right (by exact_mod_cast Nat.le_of_lt hab) hnQ.le
  · intro a ha b hb
    simp only [List.mem_singleton] at hb
    subst hb
    rcases List.mem_cons.mp ha with rfl | ha
    · norm_num
    · obtain ⟨k, hk, rfl⟩ := List.mem_map.mp ha
      have hkn : k < n := List.mem_range.mp hk
      have hnQ : (0 : ℚ) < (n : ℚ) := by
        have : 0 < n := lt_of_le_of_lt (Nat.zero_le k) hkn
        exact_mod_cast this
      rw [div_le_one hnQ]
      exact_mod_cast Nat.le_of_lt hkn

lemma trace_count_one (n : ℕ) :
    (((0 : ℚ) :: ((List.range n).map fun k : ℕ => (k : ℚ) / (n : ℚ)) ++ [1]).count 1) = 1 := by
  rw [List.count_append]
  have h1 : ((0 : ℚ) :: (List.range n).map fun k : ℕ => (k : ℚ) / (n : ℚ)).count 1 = 0 := by
    rw [List.count_eq_zero]
    intro hmem
    rcases List.mem_cons.mp hmem with h0 | hmem'
    · norm_num at h0
    · obtain ⟨k, hk, hEq⟩ := List.mem_map.mp hmem'
      have hkn : k < n := List.mem_range.mp hk
      have hn : ((n : ℚ)) ≠ 0 := by
        have hp : 0 < n := lt_of_le_of_lt (Nat.zero_le k) hkn
        exact_mod_cast Nat.pos_iff_ne_zero.mp hp
      rw [div_eq_one_iff_eq hn] at hEq
      have : k = n := by exact_mod_cast hEq
      omega
  have h2 : ([(1 : ℚ)]).count 1 = 1 := by simp
  rw [h1, h2]

lemma trace_getLast (n : ℕ) :
    (((0 : ℚ) :: ((List.range n).map fun k : ℕ => (k : ℚ) / (n : ℚ)) ++ [1]).getLast?) =
      some 1 := by
  exact List.getLast?_concat _

lemma trace_getElem (n k : ℕ) (hk : k < n) :
    (((0 : ℚ) :: ((List.range n).map fun j : ℕ => (j : ℚ) / (n : ℚ)) ++ [1]))[k + 2]? =
      some (((k + 1 : ℕ) : ℚ) / (n : ℚ)) := by
  rcases Nat.lt_or_ge (k + 1) n with h | h
  · have hlt : k + 2 < ((0 : ℚ) :: (List.range n).map fun j : ℕ => (j : ℚ) / (n : ℚ)).length := by
      simp only [List.length_cons, List.length_map, List.length_range]
      omega
    rw [List.getElem?_append_left hlt, List.getElem?_cons_succ, List.getElem?_map,
      List.getElem?_range h]
    rfl
  · have hEq : k + 1 = n := by omega
    have hlen : ((0 : ℚ) :: (List.range n).map fun j : ℕ => (j : ℚ) / (n : ℚ)).length ≤ k + 2 := by
      simp only [List.length_cons, List.length_map, List.length_range]
      omega
    rw [List.getElem?_append_right hlen]
    have hidx : k + 2 - ((0 : ℚ) :: (List.range n).map fun j : ℕ => (j : ℚ) / (n : ℚ)).length = 0 := by
      simp only [List.length_cons, List.length_map, List.length_range]
      omega
    rw [hidx]
    have hn : ((n : ℚ)) ≠ 0 := by
      have hp : 0 < n := by omega
      exact_mod_cast Nat.pos_iff_ne_zero.mp hp
    have hone : ((k + 1 : ℕ) : ℚ) / (n : ℚ) = 1 := by
      rw [hEq, div_self hn]
    rw [hone]
    rfl

/-! ### Further helper lemmas -/

lemma mkRecords_append (year_range : Int × Int) (l1 l2 : List WBObs) :
    mkRecords year_range (l1 ++ l2) = mkRecords year_range l1 ++ mkRecords year_range l2 := by
  unfold mkRecords
  rw [List.filterMap_append]

lemma mkRecords_cons_irrelevant {year_range : Int × Int} {r : WBObs}
    (hr : r.value = none ∨ r.date < year_range.1 ∨ year_range.2 < r.date) (l : List WBObs) :
    mkRecords year_range (r :: l) = mkRecords year_range l := by
  unfold mkRecords
  rw [List.filterMap_cons]
  cases hv : r.value with
  | none => rfl
  | some v =>
    dsimp only
    rw [if_neg]
    rintro ⟨h1, h2⟩
    rcases hr with h | h | h
    · rw [hv] at h
      simp at h
    · omega
    · omega

lemma fetch_country_data_none_of_inverted {year_range : Int × Int}
    (hlt : year_range.2 < year_range.1) (name : String) (raw : List RawItem) :
    fetch_country_data name year_range raw = none := by
  cases hr1 : raw[1]? with
  | none => simp [fetch_country_data, hr1]
  | some item =>
    cases item with
    | none => simp [fetch_country_data, hr1]
    | some obs =>
      exact fetch_country_data_none_of_no_records hr1 (mkRecords_eq_nil_of_inverted hlt obs)

lemma batchSummaries_nil_of_inverted {year_range : Int × Int}
    (hlt : year_range.2 < year_range.1) (entities : List (String × FetchOutcome)) :
    batchSummaries year_range entities = [] := by
  unfold batchSummaries
  rw [List.filterMap_eq_nil_iff]
  rintro ⟨nm, out⟩ _
  cases out with
  | raises m => rfl
  | payload raw => simp [entitySummary, fetch_country_data_none_of_inverted hlt]

lemma batchSeries_nil_of_inverted {year_range : Int × Int}
    (hlt : year_range.2 < year_range.1) (entities : List (String × FetchOutcome)) :
    batchSeries year_range entities = [] := by
  unfold batchSeries
  rw [List.filterMap_eq_nil_iff]
  rintro ⟨nm, out⟩ _
  cases out with
  | raises m => rfl
  | payload raw => simp [entitySummary, fetch_country_data_none_of_inverted hlt]

lemma sent_counts_partition : ∀ rows : List SentRow,
    n_pos rows + n_neu rows + n_neg rows = rows.length
  | [] => rfl
  | r :: t => by
    have ih := sent_counts_partition t
    simp only [n_pos, n_neu, n_neg, List.countP_cons, decide_eq_true_eq,
      List.length_cons] at ih ⊢
    by_cases hA : r.score > 1/20
    · rw [if_pos hA, if_neg (fun hc => absurd hA (not_lt.mpr hc.2)),
        if_neg (by intro hc; linarith)]
      omega
    · by_cases hB : r.score < -(1/20)
      · rw [if_neg hA, if_neg (fun hc => absurd hB (not_lt.mpr hc.1)), if_pos hB]
        omega
      · rw [if_neg hA, if_pos ⟨le_of_not_lt hB, le_of_not_lt hA⟩, if_neg hB]
        omega

/-! ### Claim theorems -/

/-- C2: for every payload whose series contains at least one in-range
observation with a non-absent value, the summarization inside
`fetch_country_data` returns a non-`none` Summary whose `min ≤ mean ≤ max`,
and whose latest-period field equals the maximum period present in the
filtered series. -/
theorem C2_nonempty_series_summary (name : String) (year_range : Int × Int)
    (raw : List RawItem) (obs : List WBObs)
    (hraw : raw[1]? = some (some obs))
    (hobs : ∃ r ∈ obs, r.value ≠ none ∧ year_range.1 ≤ r.date ∧ r.date ≤ year_range.2) :
    ∃ s d, fetch_country_data name year_range raw = some (s, d) ∧
      s.min ≤ s.mean ∧ s.mean ≤ s.max ∧
      (∃ p ∈ d, (p.1 : ℚ) = s.latestYear) ∧ ∀ p ∈ d, (p.1 : ℚ) ≤ s.latestYear := by
  obtain ⟨r, hr, hval, h1, h2⟩ := hobs
  obtain ⟨v, hv⟩ := Option.ne_none_iff_exists'.mp hval
  have hmem : (r.date, v) ∈ mkRecords year_range obs :=
    mem_mkRecords.mpr ⟨r, hr, rfl, hv, h1, h2⟩
  have hne : mkRecords year_range obs ≠ [] := List.ne_nil_of_mem hmem
  have hdfne : fetchSeries year_range obs ≠ [] := by
    intro h
    exact hne ((h ▸ fetchSeries_perm year_range obs).symm.eq_nil)
  have hvals_ne : (fetchSeries year_range obs).map Prod.snd ≠ [] := by
    simpa [List.map_eq_nil_iff] using hdfne
  rw [fetch_country_data_eq hraw hne]
  refine ⟨_, fetchSeries year_range obs, rfl, ?_, ?_, ?_, ?_⟩
  · exact roundTo_mono 2 (listMin_le_mean hvals_ne)
  · exact roundTo_mono 2 (mean_le_listMax hvals_ne)
  · refine ⟨(fetchSeries year_range obs).getLast?.getD (0, 0),
      getLastD_mem _ hdfne _, ?_⟩
    dsimp only
    rw [roundTo_intCast]
  · intro p hp
    have hle := le_getLastD_of_sorted (fetchSeries year_range obs)
      (fetchSeries_sorted year_range obs) p hp
    dsimp only
    rw [roundTo_intCast]
    exact_mod_cast hle

/-- Witness for C2 at a concrete two-observation payload. -/
theorem C2_witness :
    ∃ s d, fetch_country_data "Albania" (2016, 2023)
        [none, some [⟨2021, some 20⟩, ⟨2020, some 10⟩]] = some (s, d) ∧
      s.min ≤ s.mean ∧ s.mean ≤ s.max ∧
      (∃ p ∈ d, (p.1 : ℚ) = s.latestYear) ∧ ∀ p ∈ d, (p.1 : ℚ) ≤ s.latestYear :=
  C2_nonempty_series_summary "Albania" (2016, 2023) _ _ rfl
    ⟨⟨2021, some 20⟩, by simp, by decide, by decide, by decide⟩

/-- C3 counterexample: the code rounds its statistics to two decimal places,
so a country whose only in-range value is `0.004` gets the summary mean `0`,
not the arithmetic mean `1/250` of its values. -/
theorem C3_counterexample :
    ((fetch_country_data "Albania" (2016, 2023) [none, some [⟨2020, some (1/250)⟩]]).map
        fun p => p.1.mean) = some 0 ∧
    ((mkRecords (2016, 2023) [⟨2020, some (1/250)⟩]).map Prod.snd).sum /
        (((mkRecords (2016, 2023) [⟨2020, some (1/250)⟩]).map Prod.snd).length : ℚ) = 1/250 ∧
    (0 : ℚ) ≠ 1/250 := by
  refine ⟨?_, ?_, by norm_num⟩
  · simp only [fetch_country_data, mkRecords, fetchSeries, yearLE, listMin, listMax]
    norm_num [roundTo, roundHalfEven, List.insertionSort]
    exact ⟨_, ⟨by simp, rfl⟩, rfl⟩
  · simp [mkRecords]

/-- C3 amended: for every payload with at least one surviving observation,
`fetch_country_data` computes mean, min, max and latest value as the
arithmetic mean, the extrema and the max-period value of the filtered
records, each rounded half-to-even to two decimal places (`round(x, 2)`),
and the latest-period field as the maximum period itself (rounding an
integer leaves it unchanged); rounding the statistics is part of the
returned data, not merely of the display. -/
theorem C3_rounded_stats (name : String) (year_range : Int × Int)
    (raw : List RawItem) (obs : List WBObs)
    (hraw : raw[1]? = some (some obs)) (hne : mkRecords year_range obs ≠ []) :
    ∃ s d, fetch_country_data name year_range raw = some (s, d) ∧
      s.country = name ∧
      s.mean = roundTo 2 (((mkRecords year_range obs).map Prod.snd).sum /
        (((mkRecords year_range obs).map Prod.snd).length : ℚ)) ∧
      s.min = roundTo 2 (listMin ((mkRecords year_range obs).map Prod.snd)) ∧
      s.max = roundTo 2 (listMax ((mkRecords year_range obs).map Prod.snd)) ∧
      ∃ p ∈ mkRecords year_range obs,
        s.latestValue = roundTo 2 p.2 ∧ s.latestYear = (p.1 : ℚ) ∧
        ∀ q ∈ mkRecords year_range obs, q.1 ≤ p.1 := by
  have hperm := fetchSeries_perm year_range obs
  have hpermv : ((fetchSeries year_range obs).map Prod.snd).Perm
      ((mkRecords year_range obs).map Prod.snd) := hperm.map Prod.snd
  have hdfne : fetchSeries year_range obs ≠ [] := by
    intro h
    exact hne ((h ▸ hperm).symm.eq_nil)
  rw [fetch_country_data_eq hraw hne]
  refine ⟨_, fetchSeries year_range obs, rfl, rfl, ?_, ?_, ?_, ?_⟩
  · dsimp only
    rw [hpermv.sum_eq, hpermv.length_eq]
  · dsimp only
    rw [listMin_perm hpermv]
  · dsimp only
    rw [listMax_perm hpermv]
  · refine ⟨(fetchSeries year_range obs).getLast?.getD (0, 0),
      hperm.mem_iff.mp (getLastD_mem _ hdfne _), rfl, ?_, ?_⟩
    · dsimp only
      rw [roundTo_intCast]
    · intro q hq
      exact le_getLastD_of_sorted (fetchSeries year_range obs)
        (fetchSeries_sorted year_range obs) q (hperm.mem_iff.mpr hq)

/-- Witness for the amended C3 at a concrete two-observation payload. -/
theorem C3_witness :
    ∃ s d, fetch_country_data "Serbia" (2016, 2023)
        [none, some [⟨2021, some 20⟩, ⟨2020, some 10⟩]] = some (s, d) ∧
      s.country = "Serbia" ∧
      s.mean = roundTo 2 (((mkRecords (2016, 2023) [⟨2021, some 20⟩, ⟨2020, some 10⟩]).map
          Prod.snd).sum /
        (((mkRecords (2016, 2023) [⟨2021, some 20⟩, ⟨2020, some 10⟩]).map Prod.snd).length : ℚ)) ∧
      s.min = roundTo 2 (listMin ((mkRecords (2016, 2023)
        [⟨2021, some 20⟩, ⟨2020, some 10⟩]).map Prod.snd)) ∧
      s.max = roundTo 2 (listMax ((mkRecords (2016, 2023)
        [⟨2021, some 20⟩, ⟨2020, some 10⟩]).map Prod.snd)) ∧
      ∃ p ∈ mkRecords (2016, 2023) [⟨2021, some 20⟩, ⟨2020, some 10⟩],
        s.latestValue = roundTo 2 p.2 ∧ s.latestYear = (p.1 : ℚ) ∧
        ∀ q ∈ mkRecords (2016, 2023) [⟨2021, some 20⟩, ⟨2020, some 10⟩], q.1 ≤ p.1 :=
  C3_rounded_stats "Serbia" (2016, 2023) _ _ rfl (by decide)

/-- C5: the series built by the fetch step is sorted by period ascending and
contains exactly the response observations whose value is present and whose
period lies within the inclusive range; inserting an out-of-range or
valueless observation (such as one at period 2024 for the range
`(2016, 2023)`) anywhere in the payload changes neither the series nor the
Summary computed by `fetch_country_data`. -/
theorem C5_series_exact (year_range : Int × Int) :
    (∀ obs : List WBObs,
      List.Sorted yearLE (fetchSeries year_range obs) ∧
      ∀ d v, (d, v) ∈ fetchSeries year_range obs ↔
        ∃ r ∈ obs, r.date = d ∧ r.value = some v ∧ year_range.1 ≤ d ∧ d ≤ year_range.2) ∧
    ∀ (name : String) (meta : RawItem) (l1 l2 : List WBObs) (r : WBObs),
      r.value = none ∨ r.date < year_range.1 ∨ year_range.2 < r.date →
      fetch_country_data name year_range [meta, some (l1 ++ r :: l2)] =
        fetch_country_data name year_range [meta, some (l1 ++ l2)] := by
  constructor
  · intro obs
    refine ⟨fetchSeries_sorted year_range obs, fun d v => ?_⟩
    exact (fetchSeries_perm year_range obs).mem_iff.trans mem_mkRecords
  · intro name meta l1 l2 r hr
    have hmk : mkRecords year_range (l1 ++ r :: l2) = mkRecords year_range (l1 ++ l2) := by
      rw [mkRecords_append, mkRecords_append, mkRecords_cons_irrelevant hr]
    rcases eq_or_ne (mkRecords year_range (l1 ++ l2)) [] with hnil | hne
    · rw [fetch_country_data_none_of_no_records
          (rfl : (([meta, some (l1 ++ r :: l2)] : List RawItem))[1]? =
            some (some (l1 ++ r :: l2))) (hmk.trans hnil),
        fetch_country_data_none_of_no_records
          (rfl : (([meta, some (l1 ++ l2)] : List RawItem))[1]? = some (some (l1 ++ l2)))
          hnil]
    · have hne' : mkRecords year_range (l1 ++ r :: l2) ≠ [] := by
        rw [hmk]
        exact hne
      have hfs : fetchSeries year_range (l1 ++ r :: l2) = fetchSeries year_range (l1 ++ l2) := by
        unfold fetchSeries
        rw [hmk]
      rw [fetch_country_data_eq
          (rfl : (([meta, some (l1 ++ r :: l2)] : List RawItem))[1]? =
            some (some (l1 ++ r :: l2))) hne',
        fetch_country_data_eq
          (rfl : (([meta, some (l1 ++ l2)] : List RawItem))[1]? = some (some (l1 ++ l2)))
          hne,
        hfs]

/-- Witness for C5: an observation at period 2024 inserted into a payload
with range (2016, 2023) leaves the fetch result unchanged. -/
theorem C5_witness :
    fetch_country_data "Albania" (2016, 2023)
        [none, some ([⟨2020, some 10⟩] ++ ⟨2024, some 99⟩ :: [⟨2021, some 20⟩])] =
      fetch_country_data "Albania" (2016, 2023)
        [none, some ([⟨2020, some 10⟩] ++ [⟨2021, some 20⟩])] :=
  (C5_series_exact (2016, 2023)).2 "Albania" none [⟨2020, some 10⟩] [⟨2021, some 20⟩]
    ⟨2024, some 99⟩ (Or.inr (Or.inr (by decide)))

/-- C1 counterexample: a batch over a single entity whose fetch raises a
timeout does not record a skip and continue — the exception escapes
`runBatch` and the run fails. -/
theorem C1_counterexample :
    (runBatch (2016, 2023) [("Albania", FetchOutcome.raises "requests.exceptions.Timeout")]).2 =
      Except.error "requests.exceptions.Timeout" := rfl

/-- C1 amended: the batch loop has no exception handling.  A malformed but
parsed payload makes `fetch_country_data` return `None` and the entity is
silently omitted, but if the fetch of some entity raises (timeout,
connection failure, undecodable body) after the earlier entities produced
parsed payloads, the exception propagates out of the loop: the batch run
fails with that exception, the remaining entities are not processed (only
`pre.length + 2` progress reports were emitted: the initial `0`, one per
completed earlier entity, and the one before the raising entity), and no
skip record is produced. -/
theorem C1_fetch_exception_aborts_batch (year_range : Int × Int)
    (pre : List (String × FetchOutcome)) (name msg : String)
    (post : List (String × FetchOutcome)) (hpre : ∀ e ∈ pre, e.2.isPayload = true) :
    (runBatch year_range (pre ++ (name, .raises msg) :: post)).2 = Except.error msg ∧
    (runBatch year_range (pre ++ (name, .raises msg) :: post)).1.length = pre.length + 2 := by
  unfold runBatch
  rw [runBatchAux_raises year_range (pre ++ (name, .raises msg) :: post).length pre hpre
    name msg post 0 [] []]
  exact ⟨rfl, by simp⟩

/-- Witness for the amended C1: one successful entity, then a timeout. -/
theorem C1_witness :
    (runBatch (2016, 2023)
        [("Albania", FetchOutcome.payload [none, some [⟨2020, some 10⟩]]),
         ("Kosovo", FetchOutcome.raises "timeout")]).2 = Except.error "timeout" ∧
    (runBatch (2016, 2023)
        [("Albania", FetchOutcome.payload [none, some [⟨2020, some 10⟩]]),
         ("Kosovo", FetchOutcome.raises "timeout")]).1.length = 3 := by
  have h := C1_fetch_exception_aborts_batch (2016, 2023)
    [("Albania", FetchOutcome.payload [none, some [⟨2020, some 10⟩]])] "Kosovo" "timeout" []
    (by decide)
  exact ⟨h.1, h.2⟩

/-- C4 counterexample: the batch keeps no record of which entity was
skipped.  Two runs that differ only in the name of the entity whose series
is empty produce byte-for-byte identical output (progress trace, summaries
and series), so the skipped entity is not recorded anywhere. -/
theorem C4_counterexample :
    runBatch (2016, 2023)
        [("Albania", FetchOutcome.payload [none, some [⟨2020, none⟩]]),
         ("Serbia", FetchOutcome.payload [none, some [⟨2020, some 10⟩]])] =
      runBatch (2016, 2023)
        [("Kosovo", FetchOutcome.payload [none, some [⟨2020, none⟩]]),
         ("Serbia", FetchOutcome.payload [none, some [⟨2020, some 10⟩]])] ∧
    "Albania" ≠ "Kosovo" :=
  ⟨rfl, by decide⟩

/-- C4 amended: for every entity whose fetched series is empty,
`fetch_country_data` returns `None` without raising and without a partial or
zero-filled summary, and (in a batch whose other fetches return parsed
payloads) the batch omits that entity from both output tables, completes
normally, and keeps no skip record: its outputs equal those of the batch run
without the entity. -/
theorem C4_empty_series_entity_omitted (name : String) (year_range : Int × Int)
    (raw : List RawItem) (obs : List WBObs)
    (hraw : raw[1]? = some (some obs)) (hrec : mkRecords year_range obs = [])
    (pre post : List (String × FetchOutcome))
    (hpp : ∀ e ∈ pre ++ post, e.2.isPayload = true) :
    fetch_country_data name year_range raw = none ∧
    (runBatch year_range (pre ++ (name, .payload raw) :: post)).2 =
      (runBatch year_range (pre ++ post)).2 ∧
    (runBatch year_range (pre ++ (name, .payload raw) :: post)).2 =
      Except.ok (batchSummaries year_range (pre ++ post),
        batchSeries year_range (pre ++ post)) := by
  have hf : fetch_country_data name year_range raw = none :=
    fetch_country_data_none_of_no_records hraw hrec
  have hall : ∀ e ∈ pre ++ (name, FetchOutcome.payload raw) :: post, e.2.isPayload = true := by
    intro e he
    rcases List.mem_append.mp he with h | h
    · exact hpp e (List.mem_append.mpr (Or.inl h))
    · rcases List.mem_cons.mp h with rfl | h
      · rfl
      · exact hpp e (List.mem_append.mpr (Or.inr h))
  have hsum : batchSummaries year_range (pre ++ (name, .payload raw) :: post) =
      batchSummaries year_range (pre ++ post) := by
    unfold batchSummaries
    rw [List.filterMap_append, List.filterMap_append, List.filterMap_cons]
    simp [entitySummary, hf]
  have hser : batchSeries year_range (pre ++ (name, .payload raw) :: post) =
      batchSeries year_range (pre ++ post) := by
    unfold batchSeries
    rw [List.filterMap_append, List.filterMap_append, List.filterMap_cons]
    simp [entitySummary, hf]
  rw [runBatch_payload year_range _ hall, runBatch_payload year_range _ hpp]
  exact ⟨hf, by rw [hsum, hser], by rw [hsum, hser]⟩

/-- Witness for the amended C4: an empty-series entity followed by one with
data. -/
theorem C4_witness :
    fetch_country_data "Albania" (2016, 2023) [none, some [⟨2020, none⟩]] = none ∧
    (runBatch (2016, 2023)
        [("Albania", FetchOutcome.payload [none, some [⟨2020, none⟩]]),
         ("Serbia", FetchOutcome.payload [none, some [⟨2020, some 10⟩]])]).2 =
      (runBatch (2016, 2023)
        [("Serbia", FetchOutcome.payload [none, some [⟨2020, some 10⟩]])]).2 ∧
    (runBatch (2016, 2023)
        [("Albania", FetchOutcome.payload [none, some [⟨2020, none⟩]]),
         ("Serbia", FetchOutcome.payload [none, some [⟨2020, some 10⟩]])]).2 =
      Except.ok (batchSummaries (2016, 2023)
          [("Serbia", FetchOutcome.payload [none, some [⟨2020, some 10⟩]])],
        batchSeries (2016, 2023)
          [("Serbia", FetchOutcome.payload [none, some [⟨2020, some 10⟩]])]) := by
  have h := C4_empty_series_entity_omitted "Albania" (2016, 2023)
    [none, some [⟨2020, none⟩]] [⟨2020, none⟩] rfl rfl []
    [("Serbia", FetchOutcome.payload [none, some [⟨2020, some 10⟩]])] (by decide)
  exact ⟨h.1, h.2.1, h.2.2⟩

/-- C6 counterexample: a batch over the empty entity list does not fail with
a configuration error — it completes successfully with empty outputs. -/
theorem C6_counterexample :
    (runBatch (2016, 2023) []).2 = Except.ok ([], []) := rfl

/-- C6 amended: the code performs no configuration validation.  A batch over
an empty entity list — or over any entities (whose fetches return parsed
payloads) with an inverted period range, start > end — completes without
raising any error, returning empty summary and series tables; no
`ConfigurationError` exists in the code. -/
theorem C6_no_configuration_validation (year_range : Int × Int)
    (entities : List (String × FetchOutcome))
    (hp : ∀ e ∈ entities, e.2.isPayload = true)
    (hbad : entities = [] ∨ year_range.2 < year_range.1) :
    (runBatch year_range entities).2 = Except.ok ([], []) := by
  rcases hbad with rfl | hlt
  · rfl
  · rw [runBatch_payload year_range entities hp,
      batchSummaries_nil_of_inverted hlt, batchSeries_nil_of_inverted hlt]

/-- Witness for the amended C6: an inverted range (2023, 2016) over one
entity with data yields an empty, error-free result. -/
theorem C6_witness :
    (runBatch (2023, 2016)
        [("Albania", FetchOutcome.payload [none, some [⟨2020, some 10⟩]])]).2 =
      Except.ok ([], []) :=
  C6_no_configuration_validation (2023, 2016)
    [("Albania", FetchOutcome.payload [none, some [⟨2020, some 10⟩]])]
    (by decide) (Or.inr (by decide))

/-- C7 counterexample: a batch over one entity whose fetch raises reports
the progress values 0 and 0 only — the value 1.0 is never reached, contrary
to the claim that every batch run reaches 1.0 exactly once. -/
theorem C7_counterexample :
    (runBatch (2016, 2023) [("Albania", FetchOutcome.raises "timeout")]).1 = [0, 0] ∧
    (1 : ℚ) ∉ ([0, 0] : List ℚ) := by
  constructor
  · norm_num [runBatch, runBatchAux]
  · norm_num

/-- C7 amended: for every batch run in which no fetch raises, the reported
progress sequence is exactly `0, 0/n, 1/n, ..., (n-1)/n, 1.0`: it is
monotonically non-decreasing, reaches 1.0 exactly once, ends at 1.0, and
the report emitted right after entity `k` completes (by success or skip)
equals `(k+1)/n`, the completed/total fraction.  A batch in which some fetch
raises aborts early and never reports 1.0. -/
theorem C7_progress_reports (year_range : Int × Int)
    (entities : List (String × FetchOutcome))
    (hp : ∀ e ∈ entities, e.2.isPayload = true) :
    (runBatch year_range entities).1 =
      0 :: ((List.range entities.length).map fun k : ℕ =>
        (k : ℚ) / ((entities.length : ℕ) : ℚ)) ++ [1] ∧
    List.Pairwise (· ≤ ·) ((runBatch year_range entities).1) ∧
    ((runBatch year_range entities).1).count 1 = 1 ∧
    ((runBatch year_range entities).1).getLast? = some 1 ∧
    ∀ k < entities.length,
      ((runBatch year_range entities).1)[k + 2]? =
        some (((k + 1 : ℕ) : ℚ) / ((entities.length : ℕ) : ℚ)) := by
  have htr : (runBatch year_range entities).1 =
      0 :: ((List.range entities.length).map fun k : ℕ =>
        (k : ℚ) / ((entities.length : ℕ) : ℚ)) ++ [1] := by
    rw [runBatch_payload year_range entities hp]
  rw [htr]
  exact ⟨rfl, trace_pairwise entities.length, trace_count_one entities.length,
    trace_getLast entities.length, fun k hk => trace_getElem entities.length k hk⟩

/-- Witness for the amended C7: a two-entity batch (one summarized, one
skipped for lack of data) reports 0, 0, 1/2, 1. -/
theorem C7_witness :
    (runBatch (2016, 2023)
        [("Albania", FetchOutcome.payload [none, some [⟨2020, some 10⟩]]),
         ("Serbia", FetchOutcome.payload [none, some [⟨2020, none⟩]])]).1 =
      0 :: ((List.range 2).map fun k : ℕ => (k : ℚ) / ((2 : ℕ) : ℚ)) ++ [1] ∧
    ((runBatch (2016, 2023)
        [("Albania", FetchOutcome.payload [none, some [⟨2020, some 10⟩]]),
         ("Serbia", FetchOutcome.payload [none, some [⟨2020, none⟩]])]).1)[2]? =
      some (((1 : ℕ) : ℚ) / ((2 : ℕ) : ℚ)) := by
  have h := C7_progress_reports (2016, 2023)
    [("Albania", FetchOutcome.payload [none, some [⟨2020, some 10⟩]]),
     ("Serbia", FetchOutcome.payload [none, some [⟨2020, none⟩]])] (by decide)
  exact ⟨h.1, h.2.2.2.2 0 (by norm_num)⟩

/-- C8: a payload whose parsed JSON has fewer than two top-level elements,
or whose second element is `null` or empty, makes `fetch_country_data`
return `None` — exactly the result it returns for a well-formed payload
with no usable in-range observation, so the caller cannot distinguish the
malformed-payload case from a legitimately empty series. -/
theorem C8_malformed_equals_empty (name : String) (year_range : Int × Int)
    (raw raw2 : List RawItem) (obs2 : List WBObs)
    (hbad : raw.length < 2 ∨ raw[1]? = some none ∨ raw[1]? = some (some []))
    (hraw2 : raw2[1]? = some (some obs2)) (hrec2 : mkRecords year_range obs2 = []) :
    fetch_country_data name year_range raw = none ∧
    fetch_country_data name year_range raw = fetch_country_data name year_range raw2 := by
  have h1 : fetch_country_data name year_range raw = none :=
    fetch_country_data_none_of_malformed hbad
  have h2 : fetch_country_data name year_range raw2 = none :=
    fetch_country_data_none_of_no_records hraw2 hrec2
  exact ⟨h1, h1.trans h2.symm⟩

/-- Witness for C8: a one-element payload versus a payload whose only
observation has a null value. -/
theorem C8_witness :
    fetch_country_data "Albania" (2016, 2023) [none] = none ∧
    fetch_country_data "Albania" (2016, 2023) [none] =
      fetch_country_data "Albania" (2016, 2023) [none, some [⟨2020, none⟩]] :=
  C8_malformed_equals_empty "Albania" (2016, 2023) [none] [none, some [⟨2020, none⟩]]
    [⟨2020, none⟩] (Or.inl (by decide)) rfl rfl

/-- C9: when every record of the response has a null value, `fetch_wb_data`
builds its DataFrame from an empty record list; that frame has no columns at
all, so `sort_values("Year")` raises a `KeyError` instead of returning an
empty table. -/
theorem C9_all_null_values_raise (indicator_name : String) (records : List WBObs)
    (h : ∀ r ∈ records, r.value = none) :
    fetch_wb_data indicator_name records = Except.error "KeyError: Year" := by
  unfold fetch_wb_data
  have hrows : records.filterMap (fun r => r.value.map fun v => (r.date, v)) = [] := by
    rw [List.filterMap_eq_nil_iff]
    intro r hr
    rw [h r hr]
    rfl
  rw [hrows]
  rfl

/-- Witness for C9 at a concrete all-null response. -/
theorem C9_witness :
    fetch_wb_data "GDP (US$)" [⟨2020, none⟩, ⟨2021, none⟩] =
      Except.error "KeyError: Year" :=
  C9_all_null_values_raise "GDP (US$)" [⟨2020, none⟩, ⟨2021, none⟩] (by decide)

/-- C10: the sentiment step labels a headline `Positive` exactly when its
compound score exceeds 0.05, `Negative` exactly when it is below -0.05, and
`Neutral` otherwise, and the three displayed counts (computed from the
rounded scores) always sum to the number of headlines. -/
theorem C10_sentiment_partition :
    (∀ c : ℚ,
      (sentLabel c = "Positive" ↔ 1/20 < c) ∧
      (sentLabel c = "Negative" ↔ c < -(1/20)) ∧
      (sentLabel c = "Neutral" ↔ -(1/20) ≤ c ∧ c ≤ 1/20)) ∧
    ∀ headlines : List (String × ℚ),
      n_pos (sentiment_data headlines) + n_neu (sentiment_data headlines) +
          n_neg (sentiment_data headlines) = headlines.length := by
  constructor
  · intro c
    unfold sentLabel
    by_cases h1 : c > 1/20
    · rw [if_pos h1]
      exact ⟨⟨fun _ => h1, fun _ => rfl⟩,
        ⟨fun h => absurd h (by decide), fun h => absurd h1 (by linarith)⟩,
        ⟨fun h => absurd h (by decide), fun h => absurd h1 (not_lt.mpr h.2)⟩⟩
    · by_cases h2 : c < -(1/20)
      · rw [if_neg h1, if_pos h2]
        exact ⟨⟨fun h => absurd h (by decide), fun h => absurd h h1⟩,
          ⟨fun _ => h2, fun _ => rfl⟩,
          ⟨fun h => absurd h (by decide), fun h => absurd h2 (not_lt.mpr h.1)⟩⟩
      · rw [if_neg h1, if_neg h2]
        exact ⟨⟨fun h => absurd h (by decide), fun h => absurd h h1⟩,
          ⟨fun h => absurd h (by decide), fun h => absurd h h2⟩,
          ⟨fun _ => ⟨le_of_not_lt h2, le_of_not_lt h1⟩, fun _ => rfl⟩⟩
  · intro headlines
    rw [sent_counts_partition (sentiment_data headlines)]
    unfold sentiment_data
    rw [List.length_map]

end CrediDemo

section Examples

open CrediDemo

example : roundTo 2 (1/250) = 0 := by norm_num [roundTo, roundHalfEven]

example :
    fetch_country_data "A" (2016, 2023)
      [none, some [⟨2021, some 20⟩, ⟨2020, some 10⟩]] =
    some ({ country := "A", mean := 15, min := 10, max := 20,
            latestValue := 20, latestYear := 2021 }, [(2020, 10), (2021, 20)]) := by
  simp [fetch_country_data, mkRecords, fetchSeries, yearLE, listMin, listMax]
  norm_num [roundTo, roundHalfEven]

end Examples
